import Mathlib

/-!
Shallow embedding of the Session Orchestration & Multi-Channel Bridge Core
(session-control MCP tool surface, Telegram/Matrix transport bridges,
message splitting, streaming-edit state machine, long-running subscription
timer, channel-mapping persistence and the rephrase utility), together with
theorems settling the specification claims about it.

Text that the source manipulates character-by-character is modelled as
List Char; opaque identifiers are modelled as String or Nat.  JavaScript
quirks that matter to the claims (Array.prototype.slice with negative
indices, the falsy-default idiom x || d, lastIndexOf with a fromIndex,
Map insertion-order semantics) are embedded explicitly.
-/

namespace Craft

/-! ## JavaScript primitives used by the source -/

/-- JS Array.prototype.slice index resolution: a negative index counts from
the end, results are clamped to the range 0..len. -/
def jsSliceIndex (len : Nat) (i : Int) : Nat :=
  if i < 0 then (max ((len : Int) + i) 0).toNat
  else min i.toNat len

/-- JS Array.prototype.slice with both start and end indices
(elements from the resolved start, exclusive of the resolved end). -/
def jsSlice {α : Type} (l : List α) (start stop : Int) : List α :=
  (l.take (jsSliceIndex l.length stop)).drop (jsSliceIndex l.length start)

/-- The idiom x || d on a JS number: 0 and undefined are falsy, so both a
missing argument and an explicit 0 produce the default. -/
def jsOrDefault (x : Option Nat) (d : Nat) : Nat :=
  match x with
  | some v => if v = 0 then d else v
  | none => d

/-! ## Data model: messages and sessions -/

inductive Role
  | user
  | assistant
  | tool
deriving DecidableEq, Repr

structure Message where
  id : Nat
  role : Role
  content : List Char
  timestamp : Nat
deriving DecidableEq, Repr

inductive PermissionMode
  | safe
  | ask
  | allowAll
deriving DecidableEq, Repr

structure Session where
  id : String
  name : Option String
  isProcessing : Bool
  permissionMode : PermissionMode
  labels : List String
  messages : List Message
deriving DecidableEq, Repr

/-- The SessionManager as seen by the MCP tools: getSession resolves an id
to a session or nothing. -/
structure Store where
  sessions : List Session
deriving DecidableEq, Repr

def Store.get (st : Store) (sessionId : String) : Option Session :=
  st.sessions.find? (fun s => s.id = sessionId)

/-! ## get_session_messages windowing (source: session-control MCP) -/

/-- The message window computed by get_session_messages: filter to
user/assistant roles unless includeTools, then
startIdx = Math.max(0, filtered.length - limit - offset),
endIdx = filtered.length - offset, subset = filtered.slice(startIdx, endIdx).
endIdx is a plain JS number and may go negative. -/
def messagesWindow (messages : List Message) (limit offset : Nat)
    (includeTools : Bool) : List Message :=
  let filtered := if includeTools then messages
    else messages.filter (fun m => m.role = Role.user ∨ m.role = Role.assistant)
  let startIdx : Int := max 0 ((filtered.length : Int) - limit - offset)
  let endIdx : Int := (filtered.length : Int) - offset
  jsSlice filtered startIdx endIdx

/-- The full tool-argument handling: limit = args.limit || 20,
offset = args.offset || 0. -/
def getSessionMessagesWindow (messages : List Message)
    (limit offset : Option Nat) (includeTools : Bool) : List Message :=
  messagesWindow messages (jsOrDefault limit 20) (jsOrDefault offset 0)
    includeTools

/-- Five user/assistant messages, as in the claim's example. -/
def exampleMessages : List Message :=
  [⟨0, Role.user, ['a'], 0⟩, ⟨1, Role.assistant, ['b'], 1⟩,
   ⟨2, Role.user, ['c'], 2⟩, ⟨3, Role.assistant, ['d'], 3⟩,
   ⟨4, Role.user, ['e'], 4⟩]

/-! ## splitMessage (source: telegram.ts splitMessage, part_002 splitMessage)

String.prototype.lastIndexOf(search, fromIndex) returns the largest index
i ≤ fromIndex at which search occurs, or -1.  Embedded as a forward scan
keeping the last occurrence found, returning Option Nat. -/

def jsLastIndexOfAux (pat : List Char) (fromIdx : Nat) :
    List Char → Nat → Option Nat → Option Nat
  | [], i, best =>
      if fromIdx < i then best
      else if pat.isPrefixOf [] then some i else best
  | c :: t, i, best =>
      if fromIdx < i then best
      else jsLastIndexOfAux pat fromIdx t (i + 1)
        (if pat.isPrefixOf (c :: t) then some i else best)

def jsLastIndexOf (pat s : List Char) (fromIdx : Nat) : Option Nat :=
  jsLastIndexOfAux pat fromIdx s 0 none

/-- The source treats splitAt <= 0 as not-found: both -1 (no occurrence)
and index 0 fall through to the next candidate separator. -/
def toPos : Option Nat → Option Nat
  | some (n + 1) => some (n + 1)
  | _ => none

def nnPat : List Char := ['\n', '\n']
def nlPat : List Char := ['\n']
def spPat : List Char := [' ']

/-- The split-point chain of the source: last double newline at or before
the limit, else last newline, else last space, else a hard cut at the
limit; candidates at index 0 or absent fall through. -/
def splitPoint (remaining : List Char) (limit : Nat) : Nat :=
  match toPos (jsLastIndexOf nnPat remaining limit) with
  | some j => j
  | none =>
    match toPos (jsLastIndexOf nlPat remaining limit) with
    | some j => j
    | none =>
      match toPos (jsLastIndexOf spPat remaining limit) with
      | some j => j
      | none => limit

/-- Whitespace for trimStart, covering the characters the source text can
contain. -/
def isJsSpace (c : Char) : Bool :=
  c == ' ' || c == '\n' || c == '\t' || c == '\r'

/-- The while loop of splitMessage, with fuel bounding the iteration count
(each iteration with a positive limit strictly shortens the remainder, so
text.length + 1 units of fuel reproduce the loop exactly). -/
def splitMessageGo (limit : Nat) : Nat → List Char → List (List Char)
  | 0, _ => []
  | fuel + 1, remaining =>
    if remaining.length = 0 then []
    else if remaining.length ≤ limit then [remaining]
    else
      remaining.take (splitPoint remaining limit) ::
        splitMessageGo limit fuel
          ((remaining.drop (splitPoint remaining limit)).dropWhile isJsSpace)

def splitMessage (text : List Char) (limit : Nat) : List (List Char) :=
  if text.length ≤ limit then [text]
  else splitMessageGo limit (text.length + 1) text

/-- pat occurs in s starting at index i. -/
def occursAt (pat s : List Char) (i : Nat) : Bool :=
  pat.isPrefixOf (s.drop i)

/-- The 9000-character input of the counterexample: 2000 letters, 5000
spaces, 2000 letters. -/
def cexText : List Char :=
  List.replicate 2000 'a' ++ List.replicate 5000 ' ' ++ List.replicate 2000 'b'

theorem jsLastIndexOfAux_best_le (pat : List Char) (fromIdx : Nat) :
    ∀ (s : List Char) (i j0 : Nat), j0 ≤ fromIdx →
      ∃ j, jsLastIndexOfAux pat fromIdx s i (some j0) = some j ∧
        (j = j0 ∨ i ≤ j) := by
  intro s
  induction s with
  | nil =>
    intro i j0 h
    by_cases hi : fromIdx < i
    · exact ⟨j0, by simp [jsLastIndexOfAux, hi], Or.inl rfl⟩
    · by_cases hp : pat.isPrefixOf [] = true
      · exact ⟨i, by simp [jsLastIndexOfAux, hi, hp], Or.inr le_rfl⟩
      · exact ⟨j0, by simp [jsLastIndexOfAux, hi, hp], Or.inl rfl⟩
  | cons c t ih =>
    intro i j0 h
    by_cases hi : fromIdx < i
    · exact ⟨j0, by simp [jsLastIndexOfAux, hi], Or.inl rfl⟩
    · by_cases hp : pat.isPrefixOf (c :: t) = true
      · obtain ⟨j, hj, hor⟩ := ih (i + 1) i (Nat.le_of_not_lt hi)
        refine ⟨j, by simpa [jsLastIndexOfAux, hi, hp] using hj, Or.inr ?_⟩
        rcases hor with rfl | hge
        · exact le_rfl
        · exact Nat.le_of_succ_le hge
      · obtain ⟨j, hj, hor⟩ := ih (i + 1) j0 h
        refine ⟨j, by simpa [jsLastIndexOfAux, hi, hp] using hj, ?_⟩
        rcases hor with rfl | hge
        · exact Or.inl rfl
        · exact Or.inr (Nat.le_of_succ_le hge)

theorem jsLastIndexOfAux_complete (pat : List Char) (hpat : pat ≠ [])
    (fromIdx : Nat) :
    ∀ (s : List Char) (i : Nat) (best : Option Nat) (k : Nat),
      i ≤ k → k ≤ fromIdx → pat.isPrefixOf (s.drop (k - i)) = true →
      ∃ j, jsLastIndexOfAux pat fromIdx s i best = some j ∧ k ≤ j := by
  intro s
  induction s with
  | nil =>
    intro i best k _ _ hocc
    cases pat with
    | nil => exact absurd rfl hpat
    | cons p ps => simp [List.isPrefixOf] at hocc
  | cons c t ih =>
    intro i best k hik hk hocc
    have hi : ¬ fromIdx < i := Nat.not_lt.mpr (le_trans hik hk)
    rcases Nat.lt_or_ge i k with hlt | hge
    · -- the occurrence is strictly inside the tail
      have hsub : k - i = (k - (i + 1)) + 1 := by omega
      rw [hsub] at hocc
      simp only [List.drop_succ_cons] at hocc
      obtain ⟨j, hj, hkj⟩ := ih (i + 1) (if pat.isPrefixOf (c :: t) = true
        then some i else best) k hlt hk hocc
      refine ⟨j, ?_, hkj⟩
      simp only [jsLastIndexOfAux, hi, if_false]
      exact hj
    · -- k = i: the occurrence is right here, recorded into best
      have hki : k = i := Nat.le_antisymm hge hik
      subst hki
      have hocc0 : pat.isPrefixOf (c :: t) = true := by
        simpa using hocc
      obtain ⟨j, hj, hor⟩ :=
        jsLastIndexOfAux_best_le pat fromIdx t (k + 1) k hk
      refine ⟨j, ?_, ?_⟩
      · simp only [jsLastIndexOfAux, hi, if_false, hocc0, if_true]
        exact hj
      · rcases hor with rfl | hge'
        · exact le_rfl
        · exact Nat.le_of_succ_le hge'

theorem jsLastIndexOfAux_sound (pat : List Char) (fromIdx : Nat) :
    ∀ (s : List Char) (i : Nat) (best : Option Nat) (j : Nat),
      jsLastIndexOfAux pat fromIdx s i best = some j →
      best = some j ∨
        (i ≤ j ∧ j ≤ fromIdx ∧ pat.isPrefixOf (s.drop (j - i)) = true) := by
  intro s
  induction s with
  | nil =>
    intro i best j h
    by_cases hi : fromIdx < i
    · simp [jsLastIndexOfAux, hi] at h
      exact Or.inl (by rw [h])
    · by_cases hp : pat.isPrefixOf [] = true
      · simp [jsLastIndexOfAux, hi, hp] at h
        subst h
        exact Or.inr ⟨le_rfl, Nat.le_of_not_lt hi, by simpa using hp⟩
      · simp [jsLastIndexOfAux, hi, hp] at h
        exact Or.inl (by rw [h])
  | cons c t ih =>
    intro i best j h
    by_cases hi : fromIdx < i
    · simp [jsLastIndexOfAux, hi] at h
      exact Or.inl (by rw [h])
    · simp only [jsLastIndexOfAux, hi, if_false] at h
      rcases ih (i + 1) _ j h with hbest | ⟨h1, h2, h3⟩
      · by_cases hp : pat.isPrefixOf (c :: t) = true
        · simp [hp] at hbest
          subst hbest
          exact Or.inr ⟨le_rfl, Nat.le_of_not_lt hi, by simpa using hp⟩
        · simp [hp] at hbest
          exact Or.inl hbest
      · refine Or.inr ⟨Nat.le_of_succ_le h1, h2, ?_⟩
        have hsub : j - i = (j - (i + 1)) + 1 := by omega
        rw [hsub]
        simpa using h3

theorem jsLastIndexOf_sound (pat s : List Char) (fromIdx j : Nat)
    (h : jsLastIndexOf pat s fromIdx = some j) :
    j ≤ fromIdx ∧ occursAt pat s j = true := by
  rcases jsLastIndexOfAux_sound pat fromIdx s 0 none j h with hbest | ⟨_, h2, h3⟩
  · exact absurd hbest (by simp)
  · exact ⟨h2, by simpa [occursAt] using h3⟩

theorem jsLastIndexOf_complete (pat : List Char) (hpat : pat ≠ [])
    (s : List Char) (fromIdx k : Nat) (hk : k ≤ fromIdx)
    (hocc : occursAt pat s k = true) :
    ∃ j, jsLastIndexOf pat s fromIdx = some j ∧ k ≤ j := by
  have := jsLastIndexOfAux_complete pat hpat fromIdx s 0 none k (Nat.zero_le k)
    hk (by simpa [occursAt] using hocc)
  exact this

theorem toPos_eq_some {r : Option Nat} {j : Nat} (h : toPos r = some j) :
    r = some j ∧ 0 < j := by
  match r with
  | none => simp [toPos] at h
  | some 0 => simp [toPos] at h
  | some (n + 1) =>
    simp [toPos] at h
    exact ⟨by rw [h], by omega⟩

theorem splitPoint_le (remaining : List Char) (limit : Nat) :
    splitPoint remaining limit ≤ limit := by
  unfold splitPoint
  cases h1 : toPos (jsLastIndexOf nnPat remaining limit) with
  | some j =>
    exact (jsLastIndexOf_sound _ _ _ _ (toPos_eq_some h1).1).1
  | none =>
    cases h2 : toPos (jsLastIndexOf nlPat remaining limit) with
    | some j =>
      exact (jsLastIndexOf_sound _ _ _ _ (toPos_eq_some h2).1).1
    | none =>
      cases h3 : toPos (jsLastIndexOf spPat remaining limit) with
      | some j =>
        exact (jsLastIndexOf_sound _ _ _ _ (toPos_eq_some h3).1).1
      | none => exact le_rfl

theorem splitMessageGo_length_le (limit : Nat) :
    ∀ (fuel : Nat) (remaining c : List Char),
      c ∈ splitMessageGo limit fuel remaining → c.length ≤ limit := by
  intro fuel
  induction fuel with
  | zero => intro r c h; simp [splitMessageGo] at h
  | succ f ih =>
    intro r c h
    by_cases h0 : r.length = 0
    · simp [splitMessageGo, h0] at h
    · by_cases h1 : r.length ≤ limit
      · simp [splitMessageGo, h0, h1] at h
        subst h
        exact h1
      · simp [splitMessageGo, h0, h1] at h
        rcases h with rfl | h
        · calc (r.take (splitPoint r limit)).length
              ≤ splitPoint r limit := by
                simp [List.length_take]
            _ ≤ limit := splitPoint_le r limit
        · exact ih _ _ h

theorem splitMessage_length_le (text : List Char) (limit : Nat)
    (c : List Char) (h : c ∈ splitMessage text limit) : c.length ≤ limit := by
  unfold splitMessage at h
  by_cases h0 : text.length ≤ limit
  · simp [h0] at h
    subst h
    exact h0
  · simp [h0] at h
    exact splitMessageGo_length_le limit _ _ _ h

/-- If some double newline occurs at a positive index at or before the
limit, splitPoint is the last double-newline occurrence within the
limit. -/
theorem splitPoint_nn_spec (remaining : List Char) (limit j : Nat)
    (hj0 : 0 < j) (hjl : j ≤ limit) (hocc : occursAt nnPat remaining j = true) :
    occursAt nnPat remaining (splitPoint remaining limit) = true ∧
    splitPoint remaining limit ≤ limit ∧
    ∀ k, occursAt nnPat remaining k = true → k ≤ limit →
      k ≤ splitPoint remaining limit := by
  obtain ⟨m, hm, hjm⟩ :=
    jsLastIndexOf_complete nnPat (by simp [nnPat]) remaining limit j hjl hocc
  have hm0 : 0 < m := lt_of_lt_of_le hj0 hjm
  have htp : toPos (jsLastIndexOf nnPat remaining limit) = some m := by
    rw [hm]
    match m, hm0 with
    | n + 1, _ => simp [toPos]
  have hsp : splitPoint remaining limit = m := by
    unfold splitPoint
    rw [htp]
  obtain ⟨hmle, hmocc⟩ := jsLastIndexOf_sound nnPat remaining limit m hm
  refine ⟨by rw [hsp]; exact hmocc, by rw [hsp]; exact hmle, ?_⟩
  intro k hkocc hkl
  obtain ⟨m', hm', hkm'⟩ :=
    jsLastIndexOf_complete nnPat (by simp [nnPat]) remaining limit k hkl hkocc
  rw [hm] at hm'
  have hmm : m = m' := by injection hm'
  rw [hsp]
  omega

/-! Concrete evaluations of splitMessage on the 9000-character inputs,
computed through replicate/append lemmas (the lists are too large for
direct kernel evaluation). -/

theorem occursAt_eq_false_of_not_mem {pat s : List Char} {c : Char}
    (hc : c ∈ pat) (hs : c ∉ s) (j : Nat) : occursAt pat s j = false := by
  by_contra h
  have h2 : pat.isPrefixOf (s.drop j) = true := by
    simpa [occursAt] using h
  have hpfx : pat <+: s.drop j := List.isPrefixOf_iff_prefix.mp h2
  exact hs (List.drop_subset j s (hpfx.subset hc))

theorem jsLastIndexOf_eq_none {pat s : List Char}
    (h : ∀ j, occursAt pat s j = false) (fromIdx : Nat) :
    jsLastIndexOf pat s fromIdx = none := by
  cases hr : jsLastIndexOf pat s fromIdx with
  | none => rfl
  | some j =>
    have h2 := (jsLastIndexOf_sound pat s fromIdx j hr).2
    rw [h j] at h2
    exact absurd h2 (by simp)

theorem dropWhile_replicate_of_neg {p : Char → Bool} {c : Char}
    (hp : p c = false) (m : Nat) :
    (List.replicate m c).dropWhile p = List.replicate m c := by
  cases m with
  | zero => simp
  | succ k => simp [List.replicate_succ, List.dropWhile_cons, hp]

theorem dropWhile_replicate_append {p : Char → Bool} {c : Char}
    (hp : p c = true) (l : List Char) :
    ∀ m, (List.replicate m c ++ l).dropWhile p = l.dropWhile p := by
  intro m
  induction m with
  | zero => simp
  | succ k ih => simp [List.replicate_succ, List.dropWhile_cons, hp, ih]

theorem nl_not_mem_replicate_a (n : Nat) :
    ('\n' : Char) ∉ List.replicate n 'a' := by
  simp [List.mem_replicate]

theorem sp_not_mem_replicate_a (n : Nat) :
    (' ' : Char) ∉ List.replicate n 'a' := by
  simp [List.mem_replicate]

theorem splitPoint_replicate_a (n limit : Nat) :
    splitPoint (List.replicate n 'a') limit = limit := by
  have hnn : jsLastIndexOf nnPat (List.replicate n 'a') limit = none :=
    jsLastIndexOf_eq_none
      (fun j => occursAt_eq_false_of_not_mem (by simp [nnPat])
        (nl_not_mem_replicate_a n) j) limit
  have hnl : jsLastIndexOf nlPat (List.replicate n 'a') limit = none :=
    jsLastIndexOf_eq_none
      (fun j => occursAt_eq_false_of_not_mem (by simp [nlPat])
        (nl_not_mem_replicate_a n) j) limit
  have hsp : jsLastIndexOf spPat (List.replicate n 'a') limit = none :=
    jsLastIndexOf_eq_none
      (fun j => occursAt_eq_false_of_not_mem (by simp [spPat])
        (sp_not_mem_replicate_a n) j) limit
  simp [splitPoint, hnn, hnl, hsp, toPos]

theorem go_step (L fuel n : Nat) (hn : L < n) :
    splitMessageGo L (fuel + 1) (List.replicate n 'a') =
      List.replicate L 'a' ::
        splitMessageGo L fuel (List.replicate (n - L) 'a') := by
  simp only [splitMessageGo, List.length_replicate, splitPoint_replicate_a,
    List.take_replicate, List.drop_replicate]
  rw [if_neg (show ¬ n = 0 by omega), if_neg (show ¬ n ≤ L by omega)]
  rw [dropWhile_replicate_of_neg (show isJsSpace 'a' = false by decide)]
  rw [Nat.min_eq_left (le_of_lt hn)]

theorem go_cons (L fuel : Nat) (r : List Char) (h0 : r.length ≠ 0)
    (h1 : ¬ r.length ≤ L) :
    splitMessageGo L (fuel + 1) r =
      r.take (splitPoint r L) ::
        splitMessageGo L fuel ((r.drop (splitPoint r L)).dropWhile isJsSpace) := by
  simp only [splitMessageGo]
  rw [if_neg h0, if_neg h1]

theorem go_last (L fuel : Nat) (r : List Char) (h0 : r.length ≠ 0)
    (h1 : r.length ≤ L) : splitMessageGo L (fuel + 1) r = [r] := by
  simp only [splitMessageGo]
  rw [if_neg h0, if_pos h1]

/-- A 9000-character input with no newline and no space (a hard-cut-only
input) does split into chunks of 4000, 4000 and 1000 characters. -/
theorem splitMessage_replicate_9000 :
    (splitMessage (List.replicate 9000 'a') 4000).map List.length
      = [4000, 4000, 1000] := by
  unfold splitMessage
  rw [List.length_replicate]
  rw [if_neg (by norm_num)]
  rw [go_step 4000 9000 9000 (by norm_num)]
  rw [show (9000 : Nat) - 4000 = 5000 from rfl]
  rw [show (9000 : Nat) = 8999 + 1 from rfl]
  rw [go_step 4000 8999 5000 (by norm_num)]
  rw [show (5000 : Nat) - 4000 = 1000 from rfl]
  rw [show (8999 : Nat) = 8998 + 1 from rfl]
  rw [go_last 4000 8998 (List.replicate 1000 'a')
    (by rw [List.length_replicate]; norm_num)
    (by rw [List.length_replicate]; norm_num)]
  simp only [List.map_cons, List.map_nil, List.length_replicate]

theorem cexText_length : cexText.length = 9000 := by
  simp only [cexText, List.length_append, List.length_replicate]

theorem nl_not_mem_cexText : ('\n' : Char) ∉ cexText := by
  simp only [cexText, List.mem_append, List.mem_replicate]
  decide

theorem cexText_drop : cexText.drop 4000
    = List.replicate 3000 ' ' ++ List.replicate 2000 'b' := by
  simp only [cexText, List.drop_append_eq_append_drop, List.drop_replicate,
    List.length_replicate, List.length_append]
  rw [show (2000 : Nat) - 4000 = 0 from rfl,
    show (4000 : Nat) - 2000 = 2000 from rfl,
    show (5000 : Nat) - 2000 = 3000 from rfl]
  simp only [List.replicate_zero, List.nil_append]

theorem sp_occurs_cexText : occursAt spPat cexText 4000 = true := by
  have h3 : List.replicate 3000 ' ' = ' ' :: List.replicate 2999 ' ' := by
    rw [show (3000 : Nat) = 2999 + 1 from rfl, List.replicate_succ]
  rw [occursAt, cexText_drop, h3]
  rfl

theorem splitPoint_cexText : splitPoint cexText 4000 = 4000 := by
  have hnn : jsLastIndexOf nnPat cexText 4000 = none :=
    jsLastIndexOf_eq_none
      (fun j => occursAt_eq_false_of_not_mem (by simp [nnPat])
        nl_not_mem_cexText j) 4000
  have hnl : jsLastIndexOf nlPat cexText 4000 = none :=
    jsLastIndexOf_eq_none
      (fun j => occursAt_eq_false_of_not_mem (by simp [nlPat])
        nl_not_mem_cexText j) 4000
  obtain ⟨j, hj, hjge⟩ := jsLastIndexOf_complete spPat (by simp [spPat])
    cexText 4000 4000 le_rfl sp_occurs_cexText
  have hjle := (jsLastIndexOf_sound spPat cexText 4000 j hj).1
  have hj4 : j = 4000 := le_antisymm hjle hjge
  subst hj4
  rw [splitPoint, hnn, hnl, hj]
  rfl

/-- The same 9000-character length with a long space run straddling the
limit produces only 2 chunks: the split lands at the last space before
the limit and trimStart swallows the remaining 3000 spaces. -/
theorem splitMessage_cexText_two_chunks :
    (splitMessage cexText 4000).length = 2 := by
  unfold splitMessage
  rw [cexText_length]
  rw [if_neg (by norm_num)]
  rw [show (9000 : Nat) + 1 = 8999 + 1 + 1 from rfl]
  rw [go_cons 4000 (8999 + 1) cexText
    (by rw [cexText_length]; norm_num) (by rw [cexText_length]; norm_num)]
  rw [splitPoint_cexText, cexText_drop]
  rw [dropWhile_replicate_append (show isJsSpace ' ' = true by decide)]
  rw [dropWhile_replicate_of_neg (show isJsSpace 'b' = false by decide)]
  rw [go_last 4000 8999 (List.replicate 2000 'b')
    (by rw [List.length_replicate]; norm_num)
    (by rw [List.length_replicate]; norm_num)]
  rfl

/-! ## Transport bridge session mapping (source: telegram.ts
getOrCreateSession, part_002 getOrCreateSession)

The bridge keeps an insertion-ordered map externalId → mapping entry (a
JS Map), a set of attached event unsubscribers keyed by session id, and
(Telegram only) streaming states keyed by session id.  The SessionManager
is abstracted as the set of live session ids plus a fresh-id counter:
createSession always hands out an id never seen before, which the
counter makes explicit. -/

/-- JS Map.set: update in place if the key exists, else append. -/
def mapSet {α : Type} : List (Nat × α) → Nat → α → List (Nat × α)
  | [], k, v => [(k, v)]
  | (k2, v2) :: rest, k, v =>
    if k2 = k then (k, v) :: rest else (k2, v2) :: mapSet rest k v

structure ChatSession where
  chatId : Nat
  sessionId : Nat
  workspaceId : String
deriving DecidableEq, Repr

structure SMState where
  live : List Nat
  nextId : Nat
deriving DecidableEq, Repr

/-- Every live session id was allocated below the counter. -/
def SMState.wf (sm : SMState) : Prop := ∀ id ∈ sm.live, id < sm.nextId

def SMState.getSession (sm : SMState) (sessionId : Nat) : Bool :=
  sm.live.contains sessionId

def SMState.createSession (sm : SMState) : Nat × SMState :=
  (sm.nextId, ⟨sm.nextId :: sm.live, sm.nextId + 1⟩)

def SMState.deleteSession (sm : SMState) (sessionId : Nat) : SMState :=
  ⟨sm.live.filter (fun i => ¬ i = sessionId), sm.nextId⟩

structure BridgeState where
  chatSessions : List (Nat × ChatSession)
  eventUnsubscribers : List Nat
  streamingKeys : List Nat
deriving DecidableEq, Repr

structure SessionResult where
  session : ChatSession
  isNew : Bool
deriving DecidableEq, Repr

/-- The creation tail of getOrCreateSession: create the session, record
and persist the mapping (context-file writing and labelling are
bridge-external effects not modelled here). -/
def createFresh (sm : SMState) (bs : BridgeState) (chatId : Nat)
    (workspaceId : String) : SessionResult × BridgeState × SMState :=
  let created := sm.createSession
  let mapping : ChatSession := ⟨chatId, created.1, workspaceId⟩
  (⟨mapping, true⟩,
    ⟨mapSet bs.chatSessions chatId mapping, bs.eventUnsubscribers,
      bs.streamingKeys⟩,
    created.2)

/-- getOrCreateSession: reuse a mapping whose session still resolves;
otherwise discard the stale mapping, its event listener and streaming
state, and fall through to creation. -/
def getOrCreateSession (sm : SMState) (bs : BridgeState) (chatId : Nat)
    (workspaceId : String) : SessionResult × BridgeState × SMState :=
  match bs.chatSessions.lookup chatId with
  | some existing =>
    if sm.getSession existing.sessionId = true then
      (⟨existing, false⟩, bs, sm)
    else
      createFresh sm
        ⟨bs.chatSessions.filter (fun p => ¬ p.1 = chatId),
          bs.eventUnsubscribers.filter (fun i => ¬ i = existing.sessionId),
          bs.streamingKeys.filter (fun i => ¬ i = existing.sessionId)⟩
        chatId workspaceId
  | none => createFresh sm bs chatId workspaceId

/-! ## Mapping persistence (source: telegram.ts loadChatSessions and
saveChatSessions, part_002 loadRoomSessions and saveRoomSessions)

save writes Array.from(map.values()) to the JSON file; load folds the
read entries back with map.set(entry.chatId, entry). -/

def saveMappings (m : List (Nat × ChatSession)) : List ChatSession :=
  m.map Prod.snd

def loadMappings (entries : List ChatSession) : List (Nat × ChatSession) :=
  entries.foldl (fun acc e => mapSet acc e.chatId e) []

/-- The in-memory map is key-coherent: each entry is stored under its own
chatId (the only way the bridge ever inserts). -/
def keyCoherent (m : List (Nat × ChatSession)) : Prop :=
  ∀ p ∈ m, p.1 = p.2.chatId

theorem mapSet_lookup {α : Type} :
    ∀ (m : List (Nat × α)) (k : Nat) (v : α),
      (mapSet m k v).lookup k = some v := by
  intro m
  induction m with
  | nil => intro k v; simp [mapSet, List.lookup]
  | cons p rest ih =>
    intro k v
    by_cases h : p.1 = k
    · simp [mapSet, h, List.lookup]
    · have h2 : (k == p.1) = false := by
        simp
        exact fun he => h he.symm
      simp only [mapSet]
      rw [if_neg (by exact h)]
      simp [List.lookup, h2]
      exact ih k v

theorem mem_keys_mapSet {α : Type} :
    ∀ (m : List (Nat × α)) (k : Nat) (v : α) (x : Nat),
      x ∈ (mapSet m k v).map Prod.fst → x = k ∨ x ∈ m.map Prod.fst := by
  intro m
  induction m with
  | nil => intro k v x hx; simpa [mapSet] using hx
  | cons p rest ih =>
    intro k v x hx
    by_cases h : p.1 = k
    · simp [mapSet, h] at hx
      rcases hx with hx | hx
      · exact Or.inl hx
      · exact Or.inr (by simp [hx])
    · simp only [mapSet] at hx
      rw [if_neg (by exact h)] at hx
      simp at hx
      rcases hx with hx | hx
      · exact Or.inr (by simp [hx])
      · rcases ih k v x (by simpa using hx) with h1 | h1
        · exact Or.inl h1
        · exact Or.inr (by simp [List.mem_map] at h1 ⊢; tauto)

theorem mapSet_keys_nodup {α : Type} :
    ∀ (m : List (Nat × α)) (k : Nat) (v : α),
      (m.map Prod.fst).Nodup → ((mapSet m k v).map Prod.fst).Nodup := by
  intro m
  induction m with
  | nil => intro k v _; simp [mapSet]
  | cons p rest ih =>
    obtain ⟨k2, v2⟩ := p
    intro k v hnd
    rw [List.map_cons, List.nodup_cons] at hnd
    by_cases h : k2 = k
    · simp only [mapSet, if_pos h]
      rw [List.map_cons, List.nodup_cons]
      exact ⟨by rw [← h]; exact hnd.1, hnd.2⟩
    · simp only [mapSet, if_neg h]
      rw [List.map_cons, List.nodup_cons]
      refine ⟨?_, ih k v hnd.2⟩
      intro hx
      rcases mem_keys_mapSet rest k v k2 hx with h1 | h1
      · exact h h1
      · exact hnd.1 h1

theorem mapSet_of_not_mem {α : Type} :
    ∀ (m : List (Nat × α)) (k : Nat) (v : α),
      k ∉ m.map Prod.fst → mapSet m k v = m ++ [(k, v)] := by
  intro m
  induction m with
  | nil => intro k v _; simp [mapSet]
  | cons p rest ih =>
    intro k v hk
    simp at hk
    simp only [mapSet]
    rw [if_neg (fun he => hk.1 he.symm)]
    rw [ih k v (by simpa using hk.2)]
    simp

/-- Re-pairing the saved entries by their own chatId restores the
key-coherent map exactly. -/
theorem save_pairs_eq (m : List (Nat × ChatSession)) (hco : keyCoherent m) :
    (saveMappings m).map (fun e => (e.chatId, e)) = m := by
  rw [saveMappings, List.map_map]
  have h : ∀ p ∈ m, ((fun e => (e.chatId, e)) ∘ Prod.snd) p = id p := by
    intro p hp
    obtain ⟨a, b⟩ := p
    have hab := hco (a, b) hp
    simp only [Function.comp, id]
    simp at hab
    rw [hab]
  rw [List.map_congr_left h, List.map_id]

theorem loadAux :
    ∀ (entries : List ChatSession) (acc : List (Nat × ChatSession)),
      (∀ e ∈ entries, e.chatId ∉ acc.map Prod.fst) →
      (entries.map ChatSession.chatId).Nodup →
      entries.foldl (fun a e => mapSet a e.chatId e) acc
        = acc ++ entries.map (fun e => (e.chatId, e)) := by
  intro entries
  induction entries with
  | nil => intro acc _ _; simp
  | cons e rest ih =>
    intro acc hfresh hnd
    simp only [List.foldl_cons]
    rw [mapSet_of_not_mem acc e.chatId e (hfresh e (by simp))]
    simp at hnd
    rw [ih (acc ++ [(e.chatId, e)]) ?_ hnd.2]
    · simp
    · intro e2 he2
      rw [List.map_append, List.mem_append]
      rintro (hin | hin)
      · exact (hfresh e2 (by simp [he2])) hin
      · simp at hin
        exact hnd.1 e2 he2 hin

/-! ## Session-control MCP operations (source: part_003)

Each tool handler is embedded as a function of the store, the controller
session id and its arguments, returning the structured tool result, the
list of session-manager actions it performs, and the updated store.  The
interpolated session id inside the quoted not-found message is elided;
isError carries the error/success distinction. -/

inductive Effect
  | sentMessage (sessionId text : String)
  | cancelled (sessionId : String)
  | deleted (sessionId : String)
  | renamed (sessionId name : String)
  | labelsSet (sessionId : String) (labels : List String)
  | modeSet (sessionId : String) (mode : PermissionMode)
  | subscribed (sessionId : String)
deriving DecidableEq, Repr

structure ToolResult where
  isError : Bool
  text : String
deriving DecidableEq, Repr

structure OpOutcome where
  result : ToolResult
  effects : List Effect
  store : Store
deriving DecidableEq, Repr

def Store.setName (st : Store) (sessionId name : String) : Store :=
  ⟨st.sessions.map (fun s =>
    if s.id = sessionId then
      ⟨s.id, some name, s.isProcessing, s.permissionMode, s.labels, s.messages⟩
    else s)⟩

def Store.setMode (st : Store) (sessionId : String) (mode : PermissionMode) :
    Store :=
  ⟨st.sessions.map (fun s =>
    if s.id = sessionId then
      ⟨s.id, s.name, s.isProcessing, mode, s.labels, s.messages⟩
    else s)⟩

def Store.setLabels (st : Store) (sessionId : String) (labels : List String) :
    Store :=
  ⟨st.sessions.map (fun s =>
    if s.id = sessionId then
      ⟨s.id, s.name, s.isProcessing, s.permissionMode, labels, s.messages⟩
    else s)⟩

def Store.remove (st : Store) (sessionId : String) : Store :=
  ⟨st.sessions.filter (fun s => ¬ s.id = sessionId)⟩

/-- send_message, fire-and-forget path (the guard is identical in the
wait path, modelled separately for C2). -/
def send_message (st : Store) (controllerSessionId sessionId message : String) :
    OpOutcome :=
  if sessionId = controllerSessionId then
    ⟨⟨true, "Error: Cannot send message to the controller session (this would cause an infinite loop)"⟩,
      [], st⟩
  else
    match st.get sessionId with
    | none => ⟨⟨true, "Error: Session not found"⟩, [], st⟩
    | some _ =>
      ⟨⟨false, "Message sent (not waiting for response)"⟩,
        [Effect.sentMessage sessionId message], st⟩

def stop_session (st : Store) (controllerSessionId sessionId : String) :
    OpOutcome :=
  if sessionId = controllerSessionId then
    ⟨⟨true, "Error: Cannot stop the controller session from itself"⟩, [], st⟩
  else
    match st.get sessionId with
    | none => ⟨⟨true, "Error: Session not found"⟩, [], st⟩
    | some s =>
      if s.isProcessing = false then
        ⟨⟨false, "Session was not processing (already idle)"⟩, [], st⟩
      else
        ⟨⟨false, "Session processing stopped"⟩,
          [Effect.cancelled sessionId], st⟩

def delete_session (st : Store) (controllerSessionId sessionId : String)
    (force : Bool) : OpOutcome :=
  if sessionId = controllerSessionId then
    ⟨⟨true, "Error: Cannot delete the controller session from itself"⟩, [], st⟩
  else
    match st.get sessionId with
    | none => ⟨⟨true, "Error: Session not found"⟩, [], st⟩
    | some s =>
      if s.isProcessing = true ∧ force = false then
        ⟨⟨true, "Error: Session is currently processing. Use force=true to delete anyway, or stop the session first."⟩,
          [], st⟩
      else
        ⟨⟨false, "Session deleted"⟩, [Effect.deleted sessionId],
          st.remove sessionId⟩

/-- rename_session has no self-reference guard in the source. -/
def rename_session (st : Store) (controllerSessionId sessionId name : String) :
    OpOutcome :=
  match st.get sessionId with
  | none => ⟨⟨true, "Error: Session not found"⟩, [], st⟩
  | some _ =>
    ⟨⟨false, "Session renamed"⟩, [Effect.renamed sessionId name],
      st.setName sessionId name⟩

/-- set_session_labels has no self-reference guard in the source. -/
def set_session_labels (st : Store) (controllerSessionId sessionId : String)
    (labels : List String) : OpOutcome :=
  match st.get sessionId with
  | none => ⟨⟨true, "Error: Session not found"⟩, [], st⟩
  | some _ =>
    ⟨⟨false, "Labels updated"⟩, [Effect.labelsSet sessionId labels],
      st.setLabels sessionId labels⟩

/-- set_permission_mode has no self-reference guard in the source. -/
def set_permission_mode (st : Store) (controllerSessionId sessionId : String)
    (mode : PermissionMode) : OpOutcome :=
  match st.get sessionId with
  | none => ⟨⟨true, "Error: Session not found"⟩, [], st⟩
  | some _ =>
    ⟨⟨false, "Permission mode changed"⟩, [Effect.modeSet sessionId mode],
      st.setMode sessionId mode⟩

/-- get_session_status has no self-reference guard in the source. -/
def get_session_status (st : Store) (controllerSessionId sessionId : String) :
    OpOutcome :=
  match st.get sessionId with
  | none => ⟨⟨true, "Error: Session not found"⟩, [], st⟩
  | some _ => ⟨⟨false, "status"⟩, [], st⟩

/-- get_session_messages has no self-reference guard in the source;
windowing as in messagesWindow. -/
def get_session_messages (st : Store) (controllerSessionId sessionId : String)
    (limit offset : Option Nat) (includeTools : Bool) :
    ToolResult × List Message :=
  match st.get sessionId with
  | none => (⟨true, "Error: Session not found"⟩, [])
  | some s =>
    (⟨false, "messages"⟩,
      getSessionMessagesWindow s.messages limit offset includeTools)

def subscribe_session_events (st : Store)
    (controllerSessionId sessionId : String) : OpOutcome :=
  if sessionId = controllerSessionId then
    ⟨⟨true, "Error: Cannot subscribe to the controller session itself"⟩, [], st⟩
  else
    match st.get sessionId with
    | none => ⟨⟨true, "Error: Session not found"⟩, [], st⟩
    | some _ =>
      ⟨⟨false, "Subscription created"⟩, [Effect.subscribed sessionId], st⟩

structure Subscription where
  id : String
  targetSessionId : String
deriving DecidableEq, Repr

/-- unsubscribe_session_events operates on the controller's registry with
no self-reference guard; removal conditions exactly as in the source. -/
def unsubscribe_session_events (registry : List Subscription)
    (subscriptionId sessionId : Option String) :
    ToolResult × List Subscription :=
  if subscriptionId = none ∧ sessionId = none then
    (⟨true, "Error: Must provide either subscriptionId or sessionId"⟩, registry)
  else if registry = [] then
    (⟨false, "No active subscriptions to remove"⟩, registry)
  else
    let afterSub := match subscriptionId with
      | some sid => registry.filter (fun s => ¬ s.id = sid)
      | none => registry
    let afterSess := match sessionId with
      | some tid => afterSub.filter (fun s => ¬ s.targetSessionId = tid)
      | none => afterSub
    (⟨false, "Removed subscriptions"⟩, afterSess)

def approve_plan (st : Store) (controllerSessionId sessionId : String)
    (message : Option String) : OpOutcome :=
  if sessionId = controllerSessionId then
    ⟨⟨true, "Error: Cannot approve plans for the controller session from itself"⟩,
      [], st⟩
  else
    match st.get sessionId with
    | none => ⟨⟨true, "Error: Session not found"⟩, [], st⟩
    | some s =>
      if s.permissionMode ≠ PermissionMode.safe then
        ⟨⟨true, "Session is not in Explore mode. approve_plan is only needed when session is in safe mode."⟩,
          [], st⟩
      else if s.isProcessing = true then
        ⟨⟨true, "Session is currently processing. Wait for it to become idle before approving."⟩,
          [], st⟩
      else
        ⟨⟨false, "Plan approved and execution started"⟩,
          [Effect.modeSet sessionId PermissionMode.allowAll,
            Effect.sentMessage sessionId
              (message.getD "Plan approved. Proceed with execution.")],
          st.setMode sessionId PermissionMode.allowAll⟩

/-! ## Telegram streaming-edit state machine (source: telegram.ts)

handleTextDelta accumulates deltas and schedules a flush timer only while
under the edit cap; the timer callback clears the timer flag and flushes;
handleTextComplete (reached only for non-intermediate text_complete
events) cancels any pending timer, emits the authoritative final text
split into transport messages, and resets the streaming state.  The
markdown-to-HTML conversion applied to each outbound chunk is abstracted;
outbound traffic is recorded as a list of transport operations. -/

def STREAM_MAX_EDITS : Nat := 30

def STREAM_LIMIT : Nat := 4096

structure StreamingState where
  messageId : Option Nat
  buffer : List Char
  editCount : Nat
  editTimer : Bool
  complete : Bool
deriving DecidableEq, Repr

inductive TOut
  | sendNew (text : List Char)
  | editMsg (messageId : Nat) (text : List Char)
deriving DecidableEq, Repr

def truncateForTelegram (text : List Char) : List Char :=
  if text.length ≤ STREAM_LIMIT then text
  else text.take (STREAM_LIMIT - 3) ++ ['.', '.', '.']

/-- buffer += delta; schedule an edit only if no timer is pending and the
edit count is below the cap. -/
def handleTextDelta (st : StreamingState) (delta : List Char) :
    StreamingState :=
  if st.editTimer = false ∧ st.editCount < STREAM_MAX_EDITS then
    ⟨st.messageId, st.buffer ++ delta, st.editCount, true, st.complete⟩
  else
    ⟨st.messageId, st.buffer ++ delta, st.editCount, st.editTimer, st.complete⟩

/-- The flush body: empty buffer returns early; no message yet sends a new
one (whose transport id is newMessageId); an existing message is edited
only below the cap; editCount increments in every non-early path. -/
def flushStreamingBuffer (newMessageId : Nat) (st : StreamingState) :
    StreamingState × List TOut :=
  if st.buffer = [] then (st, [])
  else
    match st.messageId with
    | none =>
      (⟨some newMessageId, st.buffer, st.editCount + 1, st.editTimer,
        st.complete⟩, [TOut.sendNew (truncateForTelegram st.buffer)])
    | some mid =>
      if st.editCount < STREAM_MAX_EDITS then
        (⟨st.messageId, st.buffer, st.editCount + 1, st.editTimer,
          st.complete⟩, [TOut.editMsg mid (truncateForTelegram st.buffer)])
      else
        (⟨st.messageId, st.buffer, st.editCount + 1, st.editTimer,
          st.complete⟩, [])

/-- The timer callback first clears the timer flag, then flushes. -/
def streamEditTimerFire (newMessageId : Nat) (st : StreamingState) :
    StreamingState × List TOut :=
  flushStreamingBuffer newMessageId
    ⟨st.messageId, st.buffer, st.editCount, false, st.complete⟩

/-- Final flush on text_complete: cancel any pending timer, send the
final text split into chunks (the first chunk edits the live message when
one exists — keyed by indexOf, as in the source), reset messageId, buffer
and editCount. -/
def handleTextComplete (st : StreamingState) (text : List Char) :
    StreamingState × List TOut :=
  let chunks := splitMessage text STREAM_LIMIT
  let outs := chunks.map (fun c =>
    match st.messageId with
    | some mid =>
      if chunks.indexOf c = 0 then TOut.editMsg mid c else TOut.sendNew c
    | none => TOut.sendNew c)
  (⟨none, [], 0, false, st.complete⟩, outs)

/-- The dispatch guard: only a non-intermediate text_complete reaches
handleTextComplete. -/
def handleTextCompleteEvent (st : StreamingState) (text : List Char)
    (isIntermediate : Bool) : StreamingState × List TOut :=
  if isIntermediate = true then (st, [])
  else handleTextComplete st text

theorem splitMessage_ne_nil (text : List Char) (limit : Nat) :
    splitMessage text limit ≠ [] := by
  unfold splitMessage
  by_cases h : text.length ≤ limit
  · simp [h]
  · simp only [h, if_false]
    rw [go_cons limit text.length text (by omega) h]
    simp

/-! ## send_message waitForResponse (source: part_003 lines 290-371)

The wait path registers an Event Bus listener and arms a timeout timer;
whichever terminal occurrence (complete, error, typed_error event, or the
timer firing) happens first resolves the promise.  The race is embedded
as a list of occurrences processed in order: each occurrence is either a
session event delivered to the listener or the timeout firing. -/

inductive SEvent
  | text_delta (delta : String)
  | text_complete (text : String) (isIntermediate : Bool)
  | complete
  | error (error : String)
  | typed_error (message : String)
  | user_message (processing : Bool)
  | plan_submitted
  | session_deleted
deriving DecidableEq, Repr

structure WaitState where
  completed : Bool
  responseText : String
  listenerActive : Bool
  timerActive : Bool
deriving DecidableEq, Repr

inductive WaitResult
  | success (response : String)
  | failure (error : String) (partialResponse : Option String)
  | timeoutFailure (partialResponse : Option String)
deriving DecidableEq, Repr

inductive WaitOcc
  | ev (e : SEvent)
  | timeoutFire
deriving DecidableEq, Repr

/-- partialResponse: responseText || undefined. -/
def partialOf (txt : String) : Option String :=
  if txt = "" then none else some txt

/-- One occurrence: the timeout callback (guarded by completed, fires only
while the timer is armed, unsubscribes) or the event listener (receives
nothing once unsubscribed; guarded by completed; accumulates text_delta,
takes the authoritative text of a final text_complete, resolves on
complete with clearTimeout+unsubscribe, resolves on error/typed_error with
clearTimeout+unsubscribe and the partial text). -/
def waitStep (st : WaitState) : WaitOcc → WaitState × Option WaitResult
  | WaitOcc.timeoutFire =>
    if st.timerActive = false then (st, none)
    else if st.completed = true then
      (⟨st.completed, st.responseText, st.listenerActive, false⟩, none)
    else
      (⟨true, st.responseText, false, false⟩,
        some (WaitResult.timeoutFailure (partialOf st.responseText)))
  | WaitOcc.ev e =>
    if st.listenerActive = false then (st, none)
    else if st.completed = true then (st, none)
    else
      match e with
      | SEvent.text_delta d =>
        (⟨st.completed, st.responseText ++ d, st.listenerActive,
          st.timerActive⟩, none)
      | SEvent.text_complete t ii =>
        if ii = false then
          (⟨st.completed, t, st.listenerActive, st.timerActive⟩, none)
        else (st, none)
      | SEvent.complete =>
        (⟨true, st.responseText, false, false⟩,
          some (WaitResult.success st.responseText))
      | SEvent.error m =>
        (⟨true, st.responseText, false, false⟩,
          some (WaitResult.failure m (partialOf st.responseText)))
      | SEvent.typed_error m =>
        (⟨true, st.responseText, false, false⟩,
          some (WaitResult.failure m (partialOf st.responseText)))
      | _ => (st, none)

def waitInit : WaitState := ⟨false, "", true, true⟩

def runWaitFrom : WaitState → Option WaitResult → List WaitOcc →
    WaitState × Option WaitResult
  | st, res, [] => (st, res)
  | st, res, occ :: rest =>
    runWaitFrom (waitStep st occ).1
      (res.orElse (fun _ => (waitStep st occ).2)) rest

def runWait (occs : List WaitOcc) : WaitState × Option WaitResult :=
  runWaitFrom waitInit none occs

def isTerminal : WaitOcc → Bool
  | WaitOcc.timeoutFire => true
  | WaitOcc.ev SEvent.complete => true
  | WaitOcc.ev (SEvent.error _) => true
  | WaitOcc.ev (SEvent.typed_error _) => true
  | _ => false

/-- The response text accumulated over non-terminal occurrences: deltas
append, a final text_complete replaces. -/
def accText : List WaitOcc → String → String
  | [], txt => txt
  | WaitOcc.ev (SEvent.text_delta d) :: rest, txt => accText rest (txt ++ d)
  | WaitOcc.ev (SEvent.text_complete t false) :: rest, txt => accText rest t
  | _ :: rest, txt => accText rest txt

theorem runWaitFrom_append (l1 l2 : List WaitOcc) :
    ∀ (st : WaitState) (res : Option WaitResult),
      runWaitFrom st res (l1 ++ l2) =
        runWaitFrom (runWaitFrom st res l1).1 (runWaitFrom st res l1).2 l2 := by
  induction l1 with
  | nil => intro st res; rfl
  | cons occ rest ih =>
    intro st res
    simp only [List.cons_append, runWaitFrom]
    exact ih _ _

theorem runWaitFrom_nonterminal :
    ∀ (occs : List WaitOcc) (txt : String),
      (∀ o ∈ occs, isTerminal o = false) →
      runWaitFrom ⟨false, txt, true, true⟩ none occs
        = (⟨false, accText occs txt, true, true⟩, none) := by
  intro occs
  induction occs with
  | nil => intro txt _; rfl
  | cons occ rest ih =>
    intro txt h
    have hocc := h occ (by simp)
    have hrest : ∀ o ∈ rest, isTerminal o = false :=
      fun o ho => h o (by simp [ho])
    cases occ with
    | timeoutFire => simp [isTerminal] at hocc
    | ev e =>
      cases e with
      | text_delta d =>
        simp only [runWaitFrom, waitStep, accText]
        simpa using ih (txt ++ d) hrest
      | text_complete t ii =>
        cases ii with
        | false =>
          simp only [runWaitFrom, waitStep, accText]
          simpa using ih t hrest
        | true =>
          simp only [runWaitFrom, waitStep, accText]
          simpa using ih txt hrest
      | complete => simp [isTerminal] at hocc
      | error m => simp [isTerminal] at hocc
      | typed_error m => simp [isTerminal] at hocc
      | user_message p =>
        simp only [runWaitFrom, waitStep, accText]
        simpa using ih txt hrest
      | plan_submitted =>
        simp only [runWaitFrom, waitStep, accText]
        simpa using ih txt hrest
      | session_deleted =>
        simp only [runWaitFrom, waitStep, accText]
        simpa using ih txt hrest

/-- After resolution the state is absorbing: the listener is unsubscribed
and the timer is gone, so every later occurrence is a no-op and the first
result is kept. -/
theorem runWaitFrom_absorbed :
    ∀ (occs : List WaitOcc) (txt : String) (res : Option WaitResult),
      runWaitFrom ⟨true, txt, false, false⟩ res occs
        = (⟨true, txt, false, false⟩, res) := by
  intro occs
  induction occs with
  | nil => intro txt res; rfl
  | cons occ rest ih =>
    intro txt res
    cases occ with
    | timeoutFire =>
      simp only [runWaitFrom, waitStep]
      simpa using ih txt res
    | ev e =>
      simp only [runWaitFrom, waitStep]
      simpa using ih txt res

/-! ## Long-running subscription timer (source: part_003 lines 912-939)

The recurring 60-second callback observes whether the target is
processing (with a recorded processing start) and the whole minutes
elapsed; it notifies at the first check with runningMin >= 10 while not
yet notified, then again whenever runningMin >= 15 and
(runningMin - 10) % 5 = 0, and resets the notified flag whenever the
target is observed idle. -/

def longRunningStep (processing : Bool) (runningMin : Nat)
    (notified : Bool) : Bool × Bool :=
  if processing = true then
    if 10 ≤ runningMin ∧ notified = false then (true, true)
    else if 15 ≤ runningMin ∧ (runningMin - 10) % 5 = 0 then (notified, true)
    else (notified, false)
  else (false, false)

/-- Run the callback over a sequence of observations (processing flag and
elapsed minutes per check), collecting the minutes at which a
notification fires. -/
def runChecks : List (Bool × Nat) → Bool → List Nat
  | [], _ => []
  | (p, m) :: rest, notified =>
    (if (longRunningStep p m notified).2 = true then [m] else []) ++
      runChecks rest (longRunningStep p m notified).1

def flagAfter : List (Bool × Nat) → Bool → Bool
  | [], b => b
  | (p, m) :: rest, b => flagAfter rest (longRunningStep p m b).1

theorem runChecks_append :
    ∀ (l1 l2 : List (Bool × Nat)) (b : Bool),
      runChecks (l1 ++ l2) b
        = runChecks l1 b ++ runChecks l2 (flagAfter l1 b) := by
  intro l1
  induction l1 with
  | nil => intro l2 b; rfl
  | cons pm rest ih =>
    obtain ⟨p, m⟩ := pm
    intro l2 b
    simp only [List.cons_append, runChecks, flagAfter]
    rw [show rest.append l2 = rest ++ l2 from rfl, ih]
    simp [List.append_assoc]

theorem flagAfter_append :
    ∀ (l1 l2 : List (Bool × Nat)) (b : Bool),
      flagAfter (l1 ++ l2) b = flagAfter l2 (flagAfter l1 b) := by
  intro l1
  induction l1 with
  | nil => intro l2 b; rfl
  | cons pm rest ih =>
    obtain ⟨p, m⟩ := pm
    intro l2 b
    simp only [List.cons_append, flagAfter]
    exact ih _ _

/-- Over per-minute checks 0..n of a continuously processing target
starting unnotified, notifications fire exactly at the minutes
10, 15, 20, 25, …, and the flag afterwards records whether minute 10 was
reached. -/
theorem runChecks_minutes (n : Nat) :
    runChecks ((List.range (n + 1)).map (fun m => (true, m))) false
      = (List.range (n + 1)).filter
          (fun m => decide (m = 10 ∨ (15 ≤ m ∧ (m - 10) % 5 = 0))) ∧
    flagAfter ((List.range (n + 1)).map (fun m => (true, m))) false
      = decide (10 ≤ n) := by
  induction n with
  | zero => constructor <;> rfl
  | succ n ih =>
    rw [show n + 1 + 1 = (n + 1) + 1 from rfl, List.range_succ,
      List.map_append, List.filter_append, runChecks_append,
      flagAfter_append, ih.1, ih.2]
    have hstep1 : (longRunningStep true (n + 1) (decide (10 ≤ n))).1
        = decide (10 ≤ n + 1) := by
      rcases Nat.lt_or_ge n 9 with h | h
      · simp [longRunningStep, show ¬ (10 ≤ n + 1) by omega,
          show ¬ (15 ≤ n + 1) by omega, show ¬ (10 ≤ n) by omega]
      · by_cases h9 : n = 9
        · subst h9
          rfl
        · have h10 : 10 ≤ n := by omega
          simp only [longRunningStep, show (10 : Nat) ≤ n + 1 by omega, h10]
          simp
          split <;> rfl
    have hstep2 : (longRunningStep true (n + 1) (decide (10 ≤ n))).2
        = decide ((n + 1) = 10 ∨ (15 ≤ (n + 1) ∧ ((n + 1) - 10) % 5 = 0)) := by
      rcases Nat.lt_or_ge n 9 with h | h
      · simp [longRunningStep, show ¬ (10 ≤ n + 1) by omega,
          show ¬ (15 ≤ n + 1) by omega, show ¬ (10 ≤ n) by omega,
          show ¬ (n + 1 = 10) by omega]
      · by_cases h9 : n = 9
        · subst h9
          rfl
        · have h10 : 10 ≤ n := by omega
          simp [longRunningStep, show (10 : Nat) ≤ n + 1 by omega, h10,
            show ¬ (n + 1 = 10) by omega]
          by_cases h14 : 14 ≤ n
          · by_cases h5 : (n - 9) % 5 = 0
            · simp [h14, h5]
            · simp [h14, h5]
          · simp [h14]
    constructor
    · simp only [List.map_cons, List.map_nil, runChecks, hstep2,
        List.filter_cons, List.filter_nil]
      by_cases hp : (n + 1) = 10 ∨ (15 ≤ (n + 1) ∧ ((n + 1) - 10) % 5 = 0)
      · simp [hp]
      · simp [hp]
    · simp only [List.map_cons, List.map_nil, flagAfter, hstep1]

/-! ## rephraseUserMessage (source: part_006)

The one-shot rewrite call: the prompt is assembled from the instruction
lines, optional mention-tagging instructions, the conversation context
(last 10 messages, each content truncated to its first 500 characters)
and the target message; the streamed assistant text is collected by the
external query call, abstracted as a function from the prompt to either
an accumulated raw result or an exception. -/

structure CtxMsg where
  role : Role
  content : List Char
deriving DecidableEq, Repr

def rolePrefixOf (r : Role) : String :=
  if r = Role.user then "User: " else "Assistant: "

/-- conversationContext.slice(-10), each content sliced to 500
characters, joined with blank lines. -/
def contextLines (ctx : List CtxMsg) : String :=
  String.intercalate "\n\n"
    ((ctx.drop (ctx.length - 10)).map
      (fun m => rolePrefixOf m.role ++ String.mk (m.content.take 500)))

def mentionInstructions (availableMentions : List String) : List String :=
  if availableMentions.length ≠ 0 then
    ["",
     "IMPORTANT: The user has these data sources and skills available as @mentions:",
     String.intercalate ", " availableMentions,
     "If the user\x27s message references something that clearly matches one of these @mentions, INCLUDE the @mention in your rephrased text.",
     "For example: \"help me with the gateway\" → \"Explain how @third-party-gw-api works\" (if that source exists).",
     "Only tag mentions that are clearly relevant — do not force-tag unrelated sources."]
  else []

def buildPrompt (targetMessage : String) (ctx : List CtxMsg)
    (availableMentions : List String) : String :=
  String.intercalate "\n"
    (["You are a writing assistant. Rephrase the user\x27s message to be clearer, more specific, and more actionable.",
      "Preserve the original intent completely. Add relevant context from the conversation if it helps clarify the request.",
      "Do NOT add pleasantries, greetings, or filler. Do NOT explain what you changed.",
      "Reply with ONLY the rephrased message text — nothing else."]
    ++ mentionInstructions availableMentions
    ++ [""]
    ++ (if contextLines ctx ≠ "" then
          ["Conversation context:", contextLines ctx, ""]
        else [])
    ++ ["Original message to rephrase:", targetMessage, "",
        "Rephrased message:"])

/-- The whole call: trim the raw result, validate non-empty and shorter
than 10000 characters, return null on validation failure or on any
exception from the query. -/
def rephraseUserMessage (targetMessage : String) (ctx : List CtxMsg)
    (availableMentions : List String)
    (llm : String → Except String String) : Option String :=
  match llm (buildPrompt targetMessage ctx availableMentions) with
  | Except.error _ => none
  | Except.ok raw =>
    let trimmed := raw.trim
    if trimmed ≠ "" ∧ 0 < trimmed.length ∧ trimmed.length < 10000 then
      some trimmed
    else none

/-- A store holding just the controller session, used for the C1
counterexample. -/
def ctrlStore : Store :=
  ⟨[⟨"ctrl", none, false, PermissionMode.allowAll, [], []⟩]⟩

/-- A store holding the controller plus one idle worker session in safe
mode, used for witnesses. -/
def wStore : Store :=
  ⟨[⟨"ctrl", none, false, PermissionMode.allowAll, [], []⟩,
    ⟨"w", none, false, PermissionMode.safe, [], []⟩]⟩

end Craft

/-! ## Theorems -/

/-- C3 counterexample: a 9000-character input (2000 letters, 5000 spaces,
2000 letters) with limit 4000 is split into 2 chunks, not the 3 the claim
states for an input of 9000 characters: the space split point at index
4000 plus trimStart swallowing 3000 spaces leaves only 2000 + 2000
characters of payload. -/
theorem c3_counterexample_9000_chars_two_chunks :
    Craft.cexText.length = 9000 ∧
    (Craft.splitMessage Craft.cexText 4000).length = 2 :=
  ⟨Craft.cexText_length, Craft.splitMessage_cexText_two_chunks⟩

/-- C3 amended: every chunk returned by splitMessage has length at most
the limit; when a double newline occurs at a positive index within the
limit, the split point is the last such occurrence; and a 9000-character
input containing no newline and no space with limit 4000 is split into 3
chunks of 4000, 4000 and 1000 characters (a general 9000-character input
may yield a different chunk count). -/
theorem c3_splitMessage_chunks_bounded_and_paragraph_preferred :
    (∀ (text : List Char) (limit : Nat) (c : List Char),
      c ∈ Craft.splitMessage text limit → c.length ≤ limit) ∧
    (∀ (remaining : List Char) (limit j : Nat), 0 < j → j ≤ limit →
      Craft.occursAt Craft.nnPat remaining j = true →
      Craft.occursAt Craft.nnPat remaining
          (Craft.splitPoint remaining limit) = true ∧
        Craft.splitPoint remaining limit ≤ limit ∧
        ∀ k, Craft.occursAt Craft.nnPat remaining k = true → k ≤ limit →
          k ≤ Craft.splitPoint remaining limit) ∧
    (Craft.splitMessage (List.replicate 9000 'a') 4000).map List.length
      = [4000, 4000, 1000] := by
  exact ⟨Craft.splitMessage_length_le, Craft.splitPoint_nn_spec,
    Craft.splitMessage_replicate_9000⟩

/-- Witness for C3: the chunk bound applied to a concrete split, and the
last-double-newline property at a concrete input. -/
theorem c3_witness :
    (['x'] ∈ Craft.splitMessage ['x'] 4000 ∧ ([] : List Char).length + 1 ≤ 4000) ∧
    (0 < 1 ∧ 1 ≤ 3 ∧
      Craft.occursAt Craft.nnPat ['a', '\n', '\n'] 1 = true ∧
      Craft.occursAt Craft.nnPat ['a', '\n', '\n']
        (Craft.splitPoint ['a', '\n', '\n'] 3) = true) := by
  refine ⟨⟨by decide, ?_⟩, by decide, by decide, by decide, ?_⟩
  · exact c3_splitMessage_chunks_bounded_and_paragraph_preferred.1
      ['x'] 4000 ['x'] (by decide)
  · exact ((c3_splitMessage_chunks_bounded_and_paragraph_preferred.2.1
      ['a', '\n', '\n'] 3 1 (by decide) (by decide) (by decide))).1

/-- C1 counterexample: rename_session invoked with the controller's own
session id does not return an error and does perform the action — it
renames the controller session — so the cannot-act-on-self validation is
absent from rename_session (and likewise from set_permission_mode,
set_session_labels, get_session_status, get_session_messages and
unsubscribe_session_events). -/
theorem c1_counterexample_rename_session_self :
    (Craft.rename_session Craft.ctrlStore "ctrl" "ctrl" "x").result.isError
        = false ∧
    (Craft.rename_session Craft.ctrlStore "ctrl" "ctrl" "x").effects
        = [Craft.Effect.renamed "ctrl" "x"] := by
  refine ⟨rfl, rfl⟩

/-- C1 amended: among the operations taking a target session id, exactly
send_message, stop_session, delete_session, subscribe_session_events and
approve_plan guard against the controller's own id (returning an error
result, performing no action and leaving the store unchanged), while
rename_session, set_session_labels, set_permission_mode,
get_session_status, get_session_messages and unsubscribe_session_events
perform no such check and act on the controller session normally. -/
theorem c1_self_reference_guards :
    (∀ (st : Craft.Store) (cid msg : String),
      Craft.send_message st cid cid msg = ⟨⟨true,
        "Error: Cannot send message to the controller session (this would cause an infinite loop)"⟩,
        [], st⟩) ∧
    (∀ (st : Craft.Store) (cid : String),
      Craft.stop_session st cid cid = ⟨⟨true,
        "Error: Cannot stop the controller session from itself"⟩, [], st⟩) ∧
    (∀ (st : Craft.Store) (cid : String) (force : Bool),
      Craft.delete_session st cid cid force = ⟨⟨true,
        "Error: Cannot delete the controller session from itself"⟩, [], st⟩) ∧
    (∀ (st : Craft.Store) (cid : String),
      Craft.subscribe_session_events st cid cid = ⟨⟨true,
        "Error: Cannot subscribe to the controller session itself"⟩, [], st⟩) ∧
    (∀ (st : Craft.Store) (cid : String) (m : Option String),
      Craft.approve_plan st cid cid m = ⟨⟨true,
        "Error: Cannot approve plans for the controller session from itself"⟩,
        [], st⟩) ∧
    (∀ (st : Craft.Store) (cid name : String) (s : Craft.Session),
      st.get cid = some s →
      (Craft.rename_session st cid cid name).result.isError = false ∧
      (Craft.rename_session st cid cid name).effects
        = [Craft.Effect.renamed cid name]) ∧
    (∀ (st : Craft.Store) (cid : String) (labels : List String)
        (s : Craft.Session), st.get cid = some s →
      (Craft.set_session_labels st cid cid labels).result.isError = false ∧
      (Craft.set_session_labels st cid cid labels).effects
        = [Craft.Effect.labelsSet cid labels]) ∧
    (∀ (st : Craft.Store) (cid : String) (mode : Craft.PermissionMode)
        (s : Craft.Session), st.get cid = some s →
      (Craft.set_permission_mode st cid cid mode).result.isError = false ∧
      (Craft.set_permission_mode st cid cid mode).effects
        = [Craft.Effect.modeSet cid mode]) ∧
    (∀ (st : Craft.Store) (cid : String) (s : Craft.Session),
      st.get cid = some s →
      (Craft.get_session_status st cid cid).result.isError = false) ∧
    (∀ (st : Craft.Store) (cid : String) (limit offset : Option Nat)
        (it : Bool) (s : Craft.Session), st.get cid = some s →
      (Craft.get_session_messages st cid cid limit offset it).1.isError
        = false) ∧
    (∀ (registry : List Craft.Subscription) (cid : String),
      (Craft.unsubscribe_session_events registry none (some cid)).1.isError
        = false) := by
  refine ⟨?_, ?_, ?_, ?_, ?_, ?_, ?_, ?_, ?_, ?_, ?_⟩
  · intro st cid msg
    simp [Craft.send_message]
  · intro st cid
    simp [Craft.stop_session]
  · intro st cid force
    simp [Craft.delete_session]
  · intro st cid
    simp [Craft.subscribe_session_events]
  · intro st cid m
    simp [Craft.approve_plan]
  · intro st cid name s h
    simp [Craft.rename_session, h]
  · intro st cid labels s h
    simp [Craft.set_session_labels, h]
  · intro st cid mode s h
    simp [Craft.set_permission_mode, h]
  · intro st cid s h
    simp [Craft.get_session_status, h]
  · intro st cid limit offset it s h
    simp [Craft.get_session_messages, h]
  · intro registry cid
    by_cases hr : registry = []
    · simp [Craft.unsubscribe_session_events, hr]
    · simp [Craft.unsubscribe_session_events, hr]

/-- Witness for C1: the missing guard observed on the concrete
single-session store, and a guarded operation rejecting its own id. -/
theorem c1_witness :
    (Craft.ctrlStore.get "ctrl" =
        some ⟨"ctrl", none, false, Craft.PermissionMode.allowAll, [], []⟩ ∧
      (Craft.rename_session Craft.ctrlStore "ctrl" "ctrl" "x").result.isError
        = false) ∧
    Craft.stop_session Craft.ctrlStore "ctrl" "ctrl" = ⟨⟨true,
      "Error: Cannot stop the controller session from itself"⟩,
      [], Craft.ctrlStore⟩ := by
  refine ⟨⟨rfl, ?_⟩, ?_⟩
  · exact (c1_self_reference_guards.2.2.2.2.2.1 Craft.ctrlStore "ctrl" "x"
      ⟨"ctrl", none, false, Craft.PermissionMode.allowAll, [], []⟩ rfl).1
  · exact c1_self_reference_guards.2.1 Craft.ctrlStore "ctrl"

/-- C2: in the waitForResponse path, whichever terminal occurrence comes
first after any run of non-terminal events decides the resolution: a
complete event resolves successfully with the accumulated response text,
an error or typed_error event resolves with a failure carrying the partial
text, and the timeout firing resolves with a timeout failure carrying the
partial text; in all three cases the listener is unsubscribed and the
timer is cleared, and every later occurrence is ignored. -/
theorem c2_wait_resolution_and_cleanup :
    ∀ (pre post : List Craft.WaitOcc),
      (∀ o ∈ pre, Craft.isTerminal o = false) →
      (Craft.runWait (pre ++ Craft.WaitOcc.ev Craft.SEvent.complete :: post)
        = (⟨true, Craft.accText pre "", false, false⟩,
            some (Craft.WaitResult.success (Craft.accText pre ""))) ∧
      (∀ m, Craft.runWait
          (pre ++ Craft.WaitOcc.ev (Craft.SEvent.error m) :: post)
        = (⟨true, Craft.accText pre "", false, false⟩,
            some (Craft.WaitResult.failure m
              (Craft.partialOf (Craft.accText pre ""))))) ∧
      (∀ m, Craft.runWait
          (pre ++ Craft.WaitOcc.ev (Craft.SEvent.typed_error m) :: post)
        = (⟨true, Craft.accText pre "", false, false⟩,
            some (Craft.WaitResult.failure m
              (Craft.partialOf (Craft.accText pre ""))))) ∧
      (Craft.runWait (pre ++ Craft.WaitOcc.timeoutFire :: post)
        = (⟨true, Craft.accText pre "", false, false⟩,
            some (Craft.WaitResult.timeoutFailure
              (Craft.partialOf (Craft.accText pre "")))))) := by
  intro pre post h
  have hpre : Craft.runWaitFrom Craft.waitInit none pre
      = (⟨false, Craft.accText pre "", true, true⟩, none) :=
    Craft.runWaitFrom_nonterminal pre "" h
  refine ⟨?_, ?_, ?_, ?_⟩
  · rw [Craft.runWait, Craft.runWaitFrom_append, hpre]
    simp only [Craft.runWaitFrom, Craft.waitStep]
    simpa using Craft.runWaitFrom_absorbed post (Craft.accText pre "") _
  · intro m
    rw [Craft.runWait, Craft.runWaitFrom_append, hpre]
    simp only [Craft.runWaitFrom, Craft.waitStep]
    simpa using Craft.runWaitFrom_absorbed post (Craft.accText pre "") _
  · intro m
    rw [Craft.runWait, Craft.runWaitFrom_append, hpre]
    simp only [Craft.runWaitFrom, Craft.waitStep]
    simpa using Craft.runWaitFrom_absorbed post (Craft.accText pre "") _
  · rw [Craft.runWait, Craft.runWaitFrom_append, hpre]
    simp only [Craft.runWaitFrom, Craft.waitStep]
    simpa using Craft.runWaitFrom_absorbed post (Craft.accText pre "") _

/-- Witness for C2: a delta followed by the timeout firing resolves as a
timeout failure carrying the partial text, with listener and timer torn
down. -/
theorem c2_witness :
    Craft.runWait [Craft.WaitOcc.ev (Craft.SEvent.text_delta "hi"),
        Craft.WaitOcc.timeoutFire]
      = (⟨true, "hi", false, false⟩,
          some (Craft.WaitResult.timeoutFailure (some "hi"))) := by
  have h := (c2_wait_resolution_and_cleanup
    [Craft.WaitOcc.ev (Craft.SEvent.text_delta "hi")] []
    (by intro o ho; simp at ho; subst ho; rfl)).2.2.2
  simpa [Craft.accText, Craft.partialOf] using h

/-- C4: once editCount has reached the cap of 30, a text_delta only
appends to the buffer — the timer flag, edit count, message id stay put,
no flush is scheduled — and even a pending flush firing at the cap emits
no transport operation; the accumulated text next reaches the transport
at the non-intermediate text_complete flush, which emits at least one
transport message, clears any pending timer and resets messageId, buffer
and editCount; an intermediate text_complete does nothing. -/
theorem c4_edit_cap_and_final_flush :
    ∀ (st : Craft.StreamingState) (delta : List Char),
      Craft.STREAM_MAX_EDITS ≤ st.editCount →
      (Craft.handleTextDelta st delta =
        ⟨st.messageId, st.buffer ++ delta, st.editCount, st.editTimer,
          st.complete⟩) ∧
      (∀ mid newId, st.messageId = some mid → st.buffer ≠ [] →
        (Craft.streamEditTimerFire newId st).2 = []) ∧
      (∀ text,
        (Craft.handleTextCompleteEvent st text false).1 =
          ⟨none, [], 0, false, st.complete⟩ ∧
        (Craft.handleTextCompleteEvent st text false).2 ≠ []) ∧
      (∀ text, Craft.handleTextCompleteEvent st text true = (st, [])) := by
  intro st delta hcap
  refine ⟨?_, ?_, ?_, ?_⟩
  · have hlt : ¬ st.editCount < Craft.STREAM_MAX_EDITS := by omega
    simp [Craft.handleTextDelta, hlt]
  · intro mid newId hmid hbuf
    have hlt : ¬ st.editCount < Craft.STREAM_MAX_EDITS := by omega
    simp [Craft.streamEditTimerFire, Craft.flushStreamingBuffer, hmid, hbuf,
      hlt]
  · intro text
    constructor
    · simp [Craft.handleTextCompleteEvent, Craft.handleTextComplete]
    · simp only [Craft.handleTextCompleteEvent, Craft.handleTextComplete]
      simp [Craft.splitMessage_ne_nil text Craft.STREAM_LIMIT]
  · intro text
    simp [Craft.handleTextCompleteEvent]

/-- Witness for C4: a capped state with a live message absorbs a delta
without scheduling, a timer firing at the cap sends nothing, and the
final flush resets the state. -/
theorem c4_witness :
    Craft.STREAM_MAX_EDITS ≤ 30 ∧
    Craft.handleTextDelta ⟨some 7, ['x'], 30, false, false⟩ ['y'] =
      ⟨some 7, ['x', 'y'], 30, false, false⟩ ∧
    (Craft.streamEditTimerFire 9 ⟨some 7, ['x'], 30, false, false⟩).2 = [] ∧
    (Craft.handleTextCompleteEvent ⟨some 7, ['x'], 30, false, false⟩
      ['z'] false).1 = ⟨none, [], 0, false, false⟩ := by
  have h := c4_edit_cap_and_final_flush ⟨some 7, ['x'], 30, false, false⟩
    ['y'] (by decide)
  exact ⟨by decide, h.1, h.2.1 7 9 rfl (by decide), (h.2.2.1 ['z']).1⟩

/-- C5: when the mapping for an external id exists but its session no
longer resolves, getOrCreateSession discards the stale mapping, its event
listener and streaming state, creates a brand-new session whose id is
fresh (different from every live id and from the deleted id), persists
the new mapping under the same external id, and never hands back the
deleted session id; map keys stay duplicate-free. -/
theorem c5_stale_mapping_replaced :
    ∀ (sm : Craft.SMState) (bs : Craft.BridgeState) (chatId : Nat)
      (wsId : String) (existing : Craft.ChatSession),
      sm.wf →
      bs.chatSessions.lookup chatId = some existing →
      sm.getSession existing.sessionId = false →
      (Craft.getOrCreateSession sm bs chatId wsId).1.isNew = true ∧
      (Craft.getOrCreateSession sm bs chatId wsId).1.session
        = ⟨chatId, sm.nextId, wsId⟩ ∧
      (Craft.getOrCreateSession sm bs chatId wsId).1.session.sessionId
        ∉ sm.live ∧
      (existing.sessionId < sm.nextId →
        (Craft.getOrCreateSession sm bs chatId wsId).1.session.sessionId
          ≠ existing.sessionId) ∧
      ((Craft.getOrCreateSession sm bs chatId wsId).2.2).getSession
          (Craft.getOrCreateSession sm bs chatId wsId).1.session.sessionId
        = true ∧
      ((Craft.getOrCreateSession sm bs chatId wsId).2.1).chatSessions.lookup
          chatId
        = some (Craft.getOrCreateSession sm bs chatId wsId).1.session ∧
      existing.sessionId
        ∉ ((Craft.getOrCreateSession sm bs chatId wsId).2.1).eventUnsubscribers ∧
      ((bs.chatSessions.map Prod.fst).Nodup →
        (((Craft.getOrCreateSession sm bs chatId wsId).2.1).chatSessions.map
          Prod.fst).Nodup) := by
  intro sm bs chatId wsId ex hwf hlk hdead
  have hrw : Craft.getOrCreateSession sm bs chatId wsId =
      Craft.createFresh sm
        ⟨bs.chatSessions.filter (fun p => ¬ p.1 = chatId),
          bs.eventUnsubscribers.filter (fun i => ¬ i = ex.sessionId),
          bs.streamingKeys.filter (fun i => ¬ i = ex.sessionId)⟩
        chatId wsId := by
    rw [Craft.getOrCreateSession, hlk]
    simp [hdead]
  rw [hrw]
  refine ⟨rfl, rfl, ?_, ?_, ?_, ?_, ?_, ?_⟩
  · intro hmem
    exact absurd (hwf _ hmem)
      (by simp [Craft.createFresh, Craft.SMState.createSession])
  · intro hex
    simp only [Craft.createFresh, Craft.SMState.createSession]
    omega
  · simp [Craft.createFresh, Craft.SMState.createSession,
      Craft.SMState.getSession]
  · simp only [Craft.createFresh, Craft.SMState.createSession]
    exact Craft.mapSet_lookup _ _ _
  · simp [Craft.createFresh, List.mem_filter]
  · intro hnd
    simp only [Craft.createFresh, Craft.SMState.createSession]
    exact Craft.mapSet_keys_nodup _ _ _
      (List.Nodup.sublist
        (List.Sublist.map Prod.fst (List.filter_sublist _)) hnd)

/-- Witness for C5: the mapping for chat 5 points at deleted session 0;
the second resolution creates fresh session 1, remaps chat 5 to it and
drops the stale listener. -/
theorem c5_witness :
    (Craft.getOrCreateSession ⟨[], 1⟩ ⟨[(5, ⟨5, 0, "w"⟩)], [0], [0]⟩ 5 "w").1
      = ⟨⟨5, 1, "w"⟩, true⟩ ∧
    ((Craft.getOrCreateSession ⟨[], 1⟩
        ⟨[(5, ⟨5, 0, "w"⟩)], [0], [0]⟩ 5 "w").2.1).chatSessions.lookup 5
      = some ⟨5, 1, "w"⟩ ∧
    (0 : Nat) ∉ ((Craft.getOrCreateSession ⟨[], 1⟩
        ⟨[(5, ⟨5, 0, "w"⟩)], [0], [0]⟩ 5 "w").2.1).eventUnsubscribers := by
  have h := c5_stale_mapping_replaced ⟨[], 1⟩ ⟨[(5, ⟨5, 0, "w"⟩)], [0], [0]⟩
    5 "w" ⟨5, 0, "w"⟩ (by intro i hi; simp at hi) rfl rfl
  refine ⟨?_, ?_, ?_⟩
  · have h1 := h.1
    have h2 := h.2.1
    cases hr : (Craft.getOrCreateSession ⟨[], 1⟩
      ⟨[(5, ⟨5, 0, "w"⟩)], [0], [0]⟩ 5 "w").1 with
    | mk s n =>
      rw [hr] at h1 h2
      simp at h1 h2
      rw [h1, h2]
  · have h6 := h.2.2.2.2.2.1
    have h2 := h.2.1
    rw [h2] at h6
    exact h6
  · exact h.2.2.2.2.2.2.1

/-- C6: persisting the channel-mapping map and reloading it — in any
order — restores exactly the original mapping set: reloading the saved
entries gives back the identical map, and reloading any permutation of
the saved entries gives a permutation of the original map entries. -/
theorem c6_mapping_roundtrip :
    ∀ (m : List (Nat × Craft.ChatSession)),
      Craft.keyCoherent m →
      (m.map Prod.fst).Nodup →
      Craft.loadMappings (Craft.saveMappings m) = m ∧
      (∀ l, l.Perm (Craft.saveMappings m) →
        (Craft.loadMappings l).Perm m) := by
  intro m hco hnd
  have hkeys : (Craft.saveMappings m).map Craft.ChatSession.chatId
      = m.map Prod.fst := by
    rw [Craft.saveMappings, List.map_map]
    refine List.map_congr_left ?_
    intro p hp
    exact (hco p hp).symm
  have hnd2 : ((Craft.saveMappings m).map Craft.ChatSession.chatId).Nodup := by
    rw [hkeys]
    exact hnd
  constructor
  · rw [Craft.loadMappings,
      Craft.loadAux (Craft.saveMappings m) [] (by simp) hnd2,
      List.nil_append]
    exact Craft.save_pairs_eq m hco
  · intro l hperm
    have hndl : (l.map Craft.ChatSession.chatId).Nodup :=
      ((hperm.map Craft.ChatSession.chatId).nodup_iff).mpr hnd2
    rw [Craft.loadMappings, Craft.loadAux l [] (by simp) hndl,
      List.nil_append]
    have h1 := hperm.map (fun e => (e.chatId, e))
    rw [Craft.save_pairs_eq m hco] at h1
    exact h1

/-- Witness for C6: a concrete two-entry map survives the round trip, and
reloading the entries in reversed order restores a permutation of it. -/
theorem c6_witness :
    Craft.loadMappings (Craft.saveMappings
        [(1, ⟨1, 10, "w"⟩), (2, ⟨2, 11, "w"⟩)])
      = [(1, ⟨1, 10, "w"⟩), (2, ⟨2, 11, "w"⟩)] ∧
    (Craft.loadMappings [⟨2, 11, "w"⟩, ⟨1, 10, "w"⟩]).Perm
      [(1, ⟨1, 10, "w"⟩), (2, ⟨2, 11, "w"⟩)] := by
  have h := c6_mapping_roundtrip [(1, ⟨1, 10, "w"⟩), (2, ⟨2, 11, "w"⟩)]
    (by intro p hp; fin_cases hp <;> rfl) (by decide)
  exact ⟨h.1, h.2 [⟨2, 11, "w"⟩, ⟨1, 10, "w"⟩] (by decide)⟩

/-- C7: over per-minute checks of a continuously processing target
observed from its turn start, long-running notifications fire exactly at
minutes 10, 15, 20, 25, … — one first notification at the 10-minute mark
and one at each further 5-minute mark; an idle observation fires nothing
and resets the notified flag, so the trace after an idle check restarts
as a fresh one and the 10-minute threshold re-arms for the next turn. -/
theorem c7_long_running_notifications :
    (∀ n : Nat,
      Craft.runChecks ((List.range (n + 1)).map (fun m => (true, m))) false
        = (List.range (n + 1)).filter
            (fun m => decide (m = 10 ∨ (15 ≤ m ∧ (m - 10) % 5 = 0)))) ∧
    (∀ (b : Bool) (m0 : Nat) (l : List (Bool × Nat)),
      Craft.runChecks ((false, m0) :: l) b = Craft.runChecks l false) ∧
    (∀ (b : Bool) (m : Nat),
      Craft.longRunningStep false m b = (false, false)) := by
  refine ⟨fun n => (Craft.runChecks_minutes n).1, ?_, ?_⟩
  · intro b m0 l
    simp [Craft.runChecks, Craft.longRunningStep]
  · intro b m
    rfl

/-- C8: approve_plan succeeds exactly on an existing non-controller target
in safe mode that is not processing, in which case it sets the mode to
allow-all and sends the approval message (the given one or the default);
a target in another mode or still processing yields a descriptive failure
with no mode change and no message. -/
theorem c8_approve_plan_spec :
    ∀ (st : Craft.Store) (cid tid : String) (m : Option String),
      tid ≠ cid →
      (((Craft.approve_plan st cid tid m).result.isError = false →
        ∃ s, st.get tid = some s ∧
          s.permissionMode = Craft.PermissionMode.safe ∧
          s.isProcessing = false) ∧
      (∀ s, st.get tid = some s →
        s.permissionMode = Craft.PermissionMode.safe →
        s.isProcessing = false →
        Craft.approve_plan st cid tid m =
          ⟨⟨false, "Plan approved and execution started"⟩,
            [Craft.Effect.modeSet tid Craft.PermissionMode.allowAll,
              Craft.Effect.sentMessage tid
                (m.getD "Plan approved. Proceed with execution.")],
            st.setMode tid Craft.PermissionMode.allowAll⟩) ∧
      (∀ s, st.get tid = some s →
        s.permissionMode ≠ Craft.PermissionMode.safe →
        (Craft.approve_plan st cid tid m).result.isError = true ∧
        (Craft.approve_plan st cid tid m).effects = [] ∧
        (Craft.approve_plan st cid tid m).store = st) ∧
      (∀ s, st.get tid = some s → s.isProcessing = true →
        (Craft.approve_plan st cid tid m).result.isError = true ∧
        (Craft.approve_plan st cid tid m).effects = [] ∧
        (Craft.approve_plan st cid tid m).store = st) ∧
      (st.get tid = none →
        (Craft.approve_plan st cid tid m).result.isError = true ∧
        (Craft.approve_plan st cid tid m).effects = [])) := by
  intro st cid tid m hne
  refine ⟨?_, ?_, ?_, ?_, ?_⟩
  · intro hok
    cases hget : st.get tid with
    | none => simp [Craft.approve_plan, hne, hget] at hok
    | some s =>
      by_cases hmode : s.permissionMode = Craft.PermissionMode.safe
      · by_cases hproc : s.isProcessing = true
        · simp [Craft.approve_plan, hne, hget, hmode, hproc] at hok
        · exact ⟨s, rfl, hmode, by simpa using hproc⟩
      · simp [Craft.approve_plan, hne, hget, hmode] at hok
  · intro s hget hmode hproc
    simp [Craft.approve_plan, hne, hget, hmode, hproc]
  · intro s hget hmode
    simp [Craft.approve_plan, hne, hget, hmode]
  · intro s hget hproc
    by_cases hmode : s.permissionMode = Craft.PermissionMode.safe
    · simp [Craft.approve_plan, hne, hget, hmode, hproc]
    · simp [Craft.approve_plan, hne, hget, hmode]
  · intro hget
    simp [Craft.approve_plan, hne, hget]

/-- Witness for C8: approving the plan of the concrete safe idle worker
session switches it to allow-all and sends the default approval
message. -/
theorem c8_witness :
    Craft.approve_plan Craft.wStore "ctrl" "w" none =
      ⟨⟨false, "Plan approved and execution started"⟩,
        [Craft.Effect.modeSet "w" Craft.PermissionMode.allowAll,
          Craft.Effect.sentMessage "w" "Plan approved. Proceed with execution."],
        Craft.wStore.setMode "w" Craft.PermissionMode.allowAll⟩ := by
  exact (c8_approve_plan_spec Craft.wStore "ctrl" "w" none
    (by decide)).2.1
    ⟨"w", none, false, Craft.PermissionMode.safe, [], []⟩ rfl rfl rfl

/-- C9: the rephrase prompt depends on the conversation context only
through the last 10 messages with contents truncated to 500 characters
(two contexts agreeing there produce identical outcomes); the call
returns either the trimmed raw text — non-empty and shorter than 10000
characters — or none, and an exception from the query yields none
rather than propagating. -/
theorem c9_rephrase_spec :
    (∀ (t : String) (ctx ctx2 : List Craft.CtxMsg) (ms : List String)
        (llm : String → Except String String),
      (ctx.drop (ctx.length - 10)).map
          (fun m => (m.role, m.content.take 500))
        = (ctx2.drop (ctx2.length - 10)).map
            (fun m => (m.role, m.content.take 500)) →
      Craft.rephraseUserMessage t ctx ms llm
        = Craft.rephraseUserMessage t ctx2 ms llm) ∧
    (∀ (t : String) (ctx : List Craft.CtxMsg) (ms : List String)
        (llm : String → Except String String),
      Craft.rephraseUserMessage t ctx ms llm = none ∨
      ∃ raw, llm (Craft.buildPrompt t ctx ms) = Except.ok raw ∧
        Craft.rephraseUserMessage t ctx ms llm = some raw.trim ∧
        raw.trim ≠ "" ∧ raw.trim.length < 10000) ∧
    (∀ (t : String) (ctx : List Craft.CtxMsg) (ms : List String)
        (e : String) (llm : String → Except String String),
      llm (Craft.buildPrompt t ctx ms) = Except.error e →
      Craft.rephraseUserMessage t ctx ms llm = none) := by
  have key : ∀ l : List Craft.CtxMsg,
      l.map (fun m => Craft.rolePrefixOf m.role ++ String.mk (m.content.take 500))
        = (l.map (fun m => (m.role, m.content.take 500))).map
            (fun p => Craft.rolePrefixOf p.1 ++ String.mk p.2) := by
    intro l
    rw [List.map_map]
    exact List.map_congr_left (fun m _ => rfl)
  refine ⟨?_, ?_, ?_⟩
  · intro t ctx ctx2 ms llm h
    have hcl : Craft.contextLines ctx = Craft.contextLines ctx2 := by
      rw [Craft.contextLines, Craft.contextLines, key, key, h]
    have hbp : Craft.buildPrompt t ctx ms = Craft.buildPrompt t ctx2 ms := by
      rw [Craft.buildPrompt, Craft.buildPrompt, hcl]
    rw [Craft.rephraseUserMessage, Craft.rephraseUserMessage, hbp]
  · intro t ctx ms llm
    cases hr : llm (Craft.buildPrompt t ctx ms) with
    | error e => exact Or.inl (by simp [Craft.rephraseUserMessage, hr])
    | ok raw =>
      by_cases hval : raw.trim ≠ "" ∧ 0 < raw.trim.length ∧
          raw.trim.length < 10000
      · refine Or.inr ⟨raw, rfl, ?_, hval.1, hval.2.2⟩
        simp [Craft.rephraseUserMessage, hr, hval]
      · exact Or.inl (by simp [Craft.rephraseUserMessage, hr, hval])
  · intro t ctx ms e llm h
    simp [Craft.rephraseUserMessage, h]

/-- Witness for C9: dropping the 11th-oldest message leaves the outcome
unchanged, and a failing query yields none. -/
theorem c9_witness :
    Craft.rephraseUserMessage "m"
        (⟨Craft.Role.assistant, ['d']⟩ ::
          List.replicate 10 ⟨Craft.Role.user, ['x']⟩) []
        (fun _ => Except.error "boom")
      = Craft.rephraseUserMessage "m"
          (List.replicate 10 ⟨Craft.Role.user, ['x']⟩) []
          (fun _ => Except.error "boom") ∧
    Craft.rephraseUserMessage "m" [] [] (fun _ => Except.error "boom")
      = none := by
  constructor
  · exact c9_rephrase_spec.1 "m" _ _ [] _ (by rfl)
  · exact c9_rephrase_spec.2.2 "m" [] [] "boom" _ rfl

/-- C10: with 5 user/assistant messages, limit=2 and offset=6, the window
is non-empty, comes from the beginning of the history, and holds more than
limit messages: endIdx = 5 - 6 = -1, and slice interprets the negative end
as counting from the end, yielding the first 4 messages. -/
theorem c10_offset_beyond_end_returns_head_window :
    Craft.messagesWindow Craft.exampleMessages 2 6 false
      = Craft.exampleMessages.take 4 ∧
    Craft.messagesWindow Craft.exampleMessages 2 6 false ≠ [] ∧
    2 < (Craft.messagesWindow Craft.exampleMessages 2 6 false).length := by
  refine ⟨by decide, by decide, by decide⟩
